import Mathlib

/-!
Verification of the off-chain orchestrator/gateway worker.

This file gives a shallow embedding of the worker's data model and the
operations relevant to the specification: the manifest hash
(`buildManifestHash`), the bounded retry loop (`performWithRetry`), the
orchestrator's dispatched-id set, the provider-push verifier
(`handleProviderPush`), the secure reverse-proxy gate
(`resolveAccessRequest` and the `/secure` route), the clinic-config
route's access control, and the optionally encrypted audit logger.

External primitives (keccak digests, ECDSA signature recovery, the
AES-GCM cipher, the JSON text layer, network outcomes) are modelled as
explicit function parameters of the embedded code; every definition is
otherwise a direct translation of the TypeScript source.
-/

namespace Gateway

/-! ### Manifest hash (worker/index.ts `buildManifestHash`) -/

/-- The JS `Array.prototype.sort()` on strings: lexicographic order. -/
def jsSort (l : List String) : List String :=
  l.mergeSort (fun a b => decide (a ≤ b))

/-- `JSON.stringify` of a string array. -/
def jsonStringArray (xs : List String) : String :=
  "[" ++ String.intercalate "," (xs.map (fun s => "\"" ++ s ++ "\"")) ++ "]"

/-- The canonical payload string
`JSON.stringify(\x7bsuccess: [...success].sort(), failed: [...failed].sort()\x7d)`. -/
def manifestPayload (success failed : List String) : String :=
  "\x7b\"success\":" ++ jsonStringArray (jsSort success) ++
    ",\"failed\":" ++ jsonStringArray (jsSort failed) ++ "\x7d"

/-- `buildManifestHash` from worker/index.ts, with the keccak256-over-UTF8
digest abstracted as a function parameter. -/
def buildManifestHash (keccak : String → String) (success failed : List String) : String :=
  keccak (manifestPayload success failed)

theorem jsSort_congr_of_perm {l₁ l₂ : List String} (h : l₁.Perm l₂) :
    jsSort l₁ = jsSort l₂ := by
  unfold jsSort
  exact List.eq_of_perm_of_sorted
    ((List.mergeSort_perm l₁ _).trans (h.trans (List.mergeSort_perm l₂ _).symm))
    (List.sorted_mergeSort' l₁) (List.sorted_mergeSort' l₂)

/-- C7: `buildManifestHash` is invariant under permutation of each of its
two input lists. -/
theorem buildManifestHash_perm_invariant (keccak : String → String)
    {success success' failed failed' : List String}
    (hs : success.Perm success') (hf : failed.Perm failed') :
    buildManifestHash keccak success failed = buildManifestHash keccak success' failed' := by
  unfold buildManifestHash manifestPayload
  rw [jsSort_congr_of_perm hs, jsSort_congr_of_perm hf]

/-- Witness for C7 at the spec's concrete example: hashing
`(success=[B,A], failed=[C])` equals hashing `(success=[A,B], failed=[C])`. -/
theorem buildManifestHash_perm_invariant_witness :
    buildManifestHash id ["B", "A"] ["C"] = buildManifestHash id ["A", "B"] ["C"] :=
  buildManifestHash_perm_invariant id (by decide) (by decide)

/-! ### Bounded retry with exponential backoff (worker/index.ts `performWithRetry`)

The invocation outcomes are supplied as `fn : Nat → Except String α`,
one outcome per 1-based attempt index.  The embedded function returns
the final result, the number of invocations made, and the cumulative
wait time inserted by `sleep`. -/

def retryGo (fn : Nat → Except String α) (backoffMs : Nat) :
    Nat → Nat → Nat → Except String α × Nat × Nat
  | attempt, remaining, waited =>
    match fn attempt with
    | .ok v => (.ok v, attempt, waited)
    | .error e =>
      match remaining with
      | 0 => (.error e, attempt, waited)
      | r + 1 => retryGo fn backoffMs (attempt + 1) r (waited + backoffMs * 2 ^ (attempt - 1))

/-- `performWithRetry` from worker/index.ts: attempts run from 1 to
`attempts`; after a failed attempt `i < attempts` the loop sleeps
`backoffMs * 2^(i-1)` milliseconds; the last error is rethrown. -/
def performWithRetry (fn : Nat → Except String α) (attempts backoffMs : Nat) :
    Except String α × Nat × Nat :=
  retryGo fn backoffMs 1 (attempts - 1) 0

theorem retryGo_calls_le (fn : Nat → Except String α) (backoffMs : Nat) :
    ∀ remaining attempt waited,
      (retryGo fn backoffMs attempt remaining waited).2.1 ≤ attempt + remaining := by
  intro remaining
  induction remaining with
  | zero =>
    intro attempt waited
    unfold retryGo
    cases fn attempt <;> simp
  | succ r ih =>
    intro attempt waited
    unfold retryGo
    cases fn attempt with
    | ok v => simp
    | error e =>
      simpa [Nat.add_assoc, Nat.add_comm, Nat.add_left_comm] using
        ih (attempt + 1) (waited + backoffMs * 2 ^ (attempt - 1))

theorem retryGo_success (fn : Nat → Except String α) (backoffMs : Nat) :
    ∀ remaining attempt waited k v,
      attempt ≤ k → k ≤ attempt + remaining →
      (∀ i, attempt ≤ i → i < k → ∃ ei, fn i = .error ei) →
      fn k = .ok v →
      retryGo fn backoffMs attempt remaining waited =
        (.ok v, k, waited + ∑ i in Finset.Ico attempt k, backoffMs * 2 ^ (i - 1)) := by
  intro remaining
  induction remaining with
  | zero =>
    intro attempt waited k v hak hka _ hok
    have hk : k = attempt := Nat.le_antisymm (by simpa using hka) hak
    subst hk
    unfold retryGo
    simp [hok]
  | succ r ih =>
    intro attempt waited k v hak hka hfail hok
    rcases Nat.eq_or_lt_of_le hak with heq | hlt
    · subst heq
      unfold retryGo
      simp [hok]
    · obtain ⟨ea, hea⟩ := hfail attempt le_rfl hlt
      unfold retryGo
      simp only [hea]
      have hka' : k ≤ (attempt + 1) + r := by omega
      have hfail' : ∀ i, attempt + 1 ≤ i → i < k → ∃ ei, fn i = .error ei := by
        intro i h1 h2
        exact hfail i (by omega) h2
      rw [ih (attempt + 1) (waited + backoffMs * 2 ^ (attempt - 1)) k v hlt hka' hfail' hok]
      have hsum :
          ∑ i in Finset.Ico attempt k, backoffMs * 2 ^ (i - 1) =
            backoffMs * 2 ^ (attempt - 1) +
              ∑ i in Finset.Ico (attempt + 1) k, backoffMs * 2 ^ (i - 1) :=
        Finset.sum_eq_sum_Ico_succ_bot hlt _
      rw [hsum]
      ring_nf

theorem retryGo_all_fail (fn : Nat → Except String α) (backoffMs : Nat) :
    ∀ remaining attempt waited e,
      (∀ i, attempt ≤ i → i < attempt + remaining → ∃ ei, fn i = .error ei) →
      fn (attempt + remaining) = .error e →
      (retryGo fn backoffMs attempt remaining waited).1 = .error e := by
  intro remaining
  induction remaining with
  | zero =>
    intro attempt waited e _ hlast
    rw [Nat.add_zero] at hlast
    unfold retryGo
    simp [hlast]
  | succ r ih =>
    intro attempt waited e hfail hlast
    obtain ⟨ea, hea⟩ := hfail attempt le_rfl (by omega)
    unfold retryGo
    simp only [hea]
    have hfail' : ∀ i, attempt + 1 ≤ i → i < (attempt + 1) + r → ∃ ei, fn i = .error ei := by
      intro i h1 h2
      exact hfail i (by omega) (by omega)
    have hlast' : fn ((attempt + 1) + r) = .error e := by
      have : (attempt + 1) + r = attempt + (r + 1) := by omega
      rw [this]; exact hlast
    exact ih (attempt + 1) (waited + backoffMs * 2 ^ (attempt - 1)) e hfail' hlast'

/-- C8: `performWithRetry` invokes `fn` at most `attempts` times; if the
first `k-1` invocations fail and invocation `k ≤ attempts` succeeds it
returns that result after waiting `∑ i = 1..k-1, backoffMs * 2^(i-1)`;
if all `attempts` invocations fail, the last error is rethrown. -/
theorem performWithRetry_spec (fn : Nat → Except String α) (attempts backoffMs : Nat)
    (hA : 1 ≤ attempts) :
    ((performWithRetry fn attempts backoffMs).2.1 ≤ attempts) ∧
    (∀ k v, 1 ≤ k → k ≤ attempts →
      (∀ i, 1 ≤ i → i < k → ∃ ei, fn i = .error ei) →
      fn k = .ok v →
      performWithRetry fn attempts backoffMs =
        (.ok v, k, ∑ i in Finset.Ico 1 k, backoffMs * 2 ^ (i - 1))) ∧
    (∀ e, (∀ i, 1 ≤ i → i < attempts → ∃ ei, fn i = .error ei) →
      fn attempts = .error e →
      (performWithRetry fn attempts backoffMs).1 = .error e) := by
  have hsum : 1 + (attempts - 1) = attempts := by omega
  refine ⟨?_, ?_, ?_⟩
  · have h := retryGo_calls_le fn backoffMs (attempts - 1) 1 0
    simpa [performWithRetry, hsum] using h
  · intro k v h1 h2 hfail hok
    have h := retryGo_success fn backoffMs (attempts - 1) 1 0 k v h1 (by omega) hfail hok
    simpa [performWithRetry] using h
  · intro e hfail hlast
    have h := retryGo_all_fail fn backoffMs (attempts - 1) 1 0 e
      (by intro i hi1 hi2; exact hfail i hi1 (by omega))
      (by rw [hsum]; exact hlast)
    simpa [performWithRetry] using h

/-- Invocation outcomes used by the C8 witness: fails twice, then succeeds. -/
def retryWitnessFn : Nat → Except String Nat :=
  fun i => if i = 3 then .ok 7 else .error "boom"

/-- Witness for C8: a step failing twice then succeeding on the third of
three attempts is a success, with cumulative wait 100 + 200 = 300. -/
theorem performWithRetry_spec_witness :
    performWithRetry retryWitnessFn 3 100 = (.ok 7, 3, 300) := by
  have h := (performWithRetry_spec retryWitnessFn 3 100 (by decide)).2.1 3 7
    (by decide) (by decide)
    (by
      intro i h1 h2
      exact ⟨"boom", by
        unfold retryWitnessFn
        have : i ≠ 3 := by omega
        simp [this]⟩)
    rfl
  rw [h]
  rfl

/-! ### Orchestrator dispatch set (worker/index.ts `main`, polling loop)

The polling loop keeps an in-process `processed` set of request ids;
an observed `PatientApproved` id already in the set is skipped before
the transfer workflow (CopyEvent start and pull copy / pending-push
record) runs.  `orchestratorStep` models the handling of one observed
event id; the first component of the accumulator is the list of ids for
which the transfer workflow was executed, in execution order. -/

def orchestratorStep (acc : List Nat × List Nat) (id : Nat) : List Nat × List Nat :=
  if id ∈ acc.2 then acc else (acc.1 ++ [id], id :: acc.2)

/-- Fold the polling loop over a list of ticks, each tick observing a
list of event ids (possibly overlapping with earlier ticks); the
`processed` set persists across ticks within one process lifetime. -/
def pollTicks (ticks : List (List Nat)) : List Nat :=
  (ticks.foldl (fun acc tick => tick.foldl orchestratorStep acc) ([], [])).1

theorem orchestratorStep_invariant (x : Nat) :
    ∀ (ids : List Nat) (acc : List Nat × List Nat),
      acc.1.count x ≤ 1 → (x ∈ acc.1 → x ∈ acc.2) →
      (ids.foldl orchestratorStep acc).1.count x ≤ 1 ∧
        (x ∈ (ids.foldl orchestratorStep acc).1 → x ∈ (ids.foldl orchestratorStep acc).2) := by
  intro ids
  induction ids with
  | nil => intro acc h1 h2; exact ⟨h1, h2⟩
  | cons a rest ih =>
    intro acc h1 h2
    simp only [List.foldl_cons]
    by_cases hmem : a ∈ acc.2
    · have hstep : orchestratorStep acc a = acc := by simp [orchestratorStep, hmem]
      rw [hstep]
      exact ih acc h1 h2
    · have hstep : orchestratorStep acc a = (acc.1 ++ [a], a :: acc.2) := by
        simp [orchestratorStep, hmem]
      rw [hstep]
      apply ih
      · by_cases hx : x = a
        · subst hx
          have hx1 : x ∉ acc.1 := fun hc => hmem (h2 hc)
          simp [List.count_append, List.count_eq_zero_of_not_mem hx1]
        · simpa [List.count_append, hx] using h1
      · intro hx
        rcases List.mem_append.mp hx with hx | hx
        · exact List.mem_cons_of_mem _ (h2 hx)
        · simp only [List.mem_singleton] at hx
          subst hx
          exact List.mem_cons_self _ _

theorem pollTicks_invariant (x : Nat) :
    ∀ (ticks : List (List Nat)) (acc : List Nat × List Nat),
      acc.1.count x ≤ 1 → (x ∈ acc.1 → x ∈ acc.2) →
      (ticks.foldl (fun acc tick => tick.foldl orchestratorStep acc) acc).1.count x ≤ 1 := by
  intro ticks
  induction ticks with
  | nil => intro acc h1 _; exact h1
  | cons t rest ih =>
    intro acc h1 h2
    simp only [List.foldl_cons]
    obtain ⟨h1', h2'⟩ := orchestratorStep_invariant x t acc h1 h2
    exact ih _ h1' h2'

/-- C6: within one process lifetime, the transfer workflow executes at
most once per request id, even when the same id is observed again in a
later polling tick or overlapping block window. -/
theorem transfer_workflow_at_most_once (ticks : List (List Nat)) (id : Nat) :
    (pollTicks ticks).count id ≤ 1 :=
  pollTicks_invariant id ticks ([], []) (by simp) (by simp)

/-! ### Push envelope hashing (worker/push-utils.ts) -/

/-- One instance of a provider push envelope.  `data` is the base64
payload; the empty string models a missing/empty payload. -/
structure PushInstance where
  sop : String
  study : Option String := none
  series : Option String := none
  data : String
deriving Repr, DecidableEq

/-- A provider push envelope.  `requestId`/`expiresAt` are `none` when
the JS `Number(...)` coercion of the field is not finite. -/
structure PushEnvelope where
  clinicId : String
  requestId : Option Nat
  expiresAt : Option Nat
  instances : List PushInstance
  signature : String
deriving Repr, DecidableEq

/-- A canonicalised instance entry: id plus hash of its payload, never
the payload itself. -/
structure CanonicalEntry where
  sop : String
  study : Option String
  series : Option String
  dataHash : String
deriving Repr, DecidableEq

/-- `canonicalise` from push-utils.ts: reduce each instance to
`sop/study/series/dataHash` and sort by `sop`. -/
def canonicalise (keccak : String → String) (instances : List PushInstance) :
    List CanonicalEntry :=
  (instances.map (fun i => CanonicalEntry.mk i.sop i.study i.series (keccak i.data))).mergeSort
    (fun a b => decide (a.sop ≤ b.sop))

def jsonNullableString : Option String → String
  | none => "null"
  | some s => "\"" ++ s ++ "\""

def canonicalEntryJson (e : CanonicalEntry) : String :=
  "\x7b\"sop\":\"" ++ e.sop ++ "\",\"study\":" ++ jsonNullableString e.study ++
    ",\"series\":" ++ jsonNullableString e.series ++
    ",\"dataHash\":\"" ++ e.dataHash ++ "\"\x7d"

def jsonArrayRaw (xs : List String) : String :=
  "[" ++ String.intercalate "," xs ++ "]"

/-- `computeInstancesHash` from push-utils.ts. -/
def computeInstancesHash (keccak : String → String) (instances : List PushInstance) : String :=
  keccak (jsonArrayRaw ((canonicalise keccak instances).map canonicalEntryJson))

/-- ASCII lower-casing modelling `String.prototype.toLowerCase` (the
operator addresses compared with it are hex strings), written
structurally so concrete instances evaluate. -/
def asciiLower (c : Char) : Char :=
  if 'A' ≤ c ∧ c ≤ 'Z' then Char.ofNat (c.toNat + 32) else c

def strToLower (s : String) : String := ⟨s.data.map asciiLower⟩

/-- `String.prototype.trim`, written structurally. -/
def strTrim (s : String) : String :=
  ⟨((s.data.dropWhile Char.isWhitespace).reverse.dropWhile Char.isWhitespace).reverse⟩

/-- `buildPushMessage` from push-utils.ts. -/
def buildPushMessage (clinicId : String) (requestId expiresAt : Nat)
    (payloadHash : String) : String :=
  "ProviderPush|" ++ strTrim clinicId ++ "|" ++ toString requestId ++ "|" ++
    toString expiresAt ++ "|" ++ payloadHash

/-! ### Copy event store (worker/index.ts `CopyEventStore`) -/

/-- Copy event status.  `someFailed` renders the source's status string
for a partially successful transfer. -/
inductive CopyStatus
  | pending
  | copying
  | completed
  | someFailed
  | error
deriving Repr, DecidableEq

structure CopyEventM where
  status : CopyStatus
  total : Nat := 0
  success : Nat := 0
  failed : Nat := 0
  errors : List String := []
  failures : List (String × String) := []
  manifestHash : Option String := none
deriving Repr, DecidableEq

structure CopyEventPatch where
  total : Option Nat := none
  success : Option Nat := none
  failed : Option Nat := none
  status : Option CopyStatus := none
  manifestHash : Option String := none
  error : Option String := none

/-- `Array.prototype.slice(-n)`: the last `n` elements. -/
def lastN (n : Nat) (l : List α) : List α := (l.reverse.take n).reverse

/-- Field-wise application of a `CopyEventStore.update` patch. -/
def ceApply (p : CopyEventPatch) (e : CopyEventM) : CopyEventM :=
  let e1 := match p.total with | some t => { e with total := t } | none => e
  let e2 := match p.success with | some s => { e1 with success := s } | none => e1
  let e3 := match p.failed with | some f => { e2 with failed := f } | none => e2
  let e4 := match p.status with | some st => { e3 with status := st } | none => e3
  let e5 := match p.manifestHash with | some m => { e4 with manifestHash := some m } | none => e4
  match p.error with
  | some msg => { e5 with errors := lastN 5 (e5.errors ++ [msg]) }
  | none => e5

/-- Replace the stored event for `id` (if present) by `f` of it; the
recursive rendering of `store.map` over the association list. -/
def ceModify : List (Nat × CopyEventM) → Nat → (CopyEventM → CopyEventM) →
    List (Nat × CopyEventM)
  | [], _, _ => []
  | (a, v) :: t, id, f => (if a = id then (a, f v) else (a, v)) :: ceModify t id f

def ceUpdate (store : List (Nat × CopyEventM)) (id : Nat) (p : CopyEventPatch) :
    List (Nat × CopyEventM) :=
  ceModify store id (ceApply p)

def ceRecordFailure (store : List (Nat × CopyEventM)) (id : Nat) (sop message : String) :
    List (Nat × CopyEventM) :=
  ceModify store id (fun e => { e with failures := lastN 20 (e.failures ++ [(sop, message)]) })

/-- `CopyEventStore.fail`: mark the event `error` and append the message. -/
def ceFail (store : List (Nat × CopyEventM)) (id : Nat) (message : String) :
    List (Nat × CopyEventM) :=
  ceModify store id (fun e =>
    { e with status := CopyStatus.error, errors := lastN 5 (e.errors ++ [message]) })

/-! ### Provider push verifier (worker/index.ts `handleProviderPush`) -/

structure PendingPushEntry where
  requestId : Nat
  providerId : String
  patientAddress : String
  patientId : String
deriving Repr, DecidableEq

/-- On-chain access request record as read through `contract.reqs`. -/
structure LedgerReq where
  id : Nat
  status : Nat
  patient : String
  providerClinicKey : String
  requesterClinicKey : String
deriving Repr, DecidableEq

inductive CopyMode
  | dryRun
  | orthanc
  | providerPush
deriving Repr, DecidableEq

/-- Environment of `handleProviderPush`: configuration plus the external
primitives (keccak digest, ECDSA address recovery, ledger reads, upload
outcomes after retries, and the fulfillment signer outcome). -/
structure PushEnv where
  copyMode : CopyMode
  providerSigners : List (String × String)
  keccak : String → String
  recover : String → String → Except String String
  reqs : Nat → Except String LedgerReq
  requesterConfigured : Bool
  nowSec : Nat
  uploadOk : String → Bool
  markFulfilled : Except String String

structure PushBody where
  manifestHash : String
  success : Nat
  failed : Nat
  status : CopyStatus
deriving Repr, DecidableEq

/-- Result of `handleProviderPush` together with the post-state of the
pending-push map and copy-event store, and the list of SOP ids for
which an upload to the requester endpoint was attempted. -/
structure PushOutcome where
  status : Nat
  error : Option String := none
  body : Option PushBody := none
  pending : List (Nat × PendingPushEntry)
  copyEvents : List (Nat × CopyEventM)
  uploads : List String := []
deriving Repr, DecidableEq

/-- `Map.prototype.get`: first value stored under the key. -/
def alookup [DecidableEq κ] (k : κ) : List (κ × α) → Option α
  | [] => none
  | (a, v) :: t => if a = k then some v else alookup k t

/-- `Map.prototype.delete`: drop the entries stored under the key. -/
def eraseKey [DecidableEq κ] : List (κ × α) → κ → List (κ × α)
  | [], _ => []
  | (a, v) :: t, k => if a = k then eraseKey t k else (a, v) :: eraseKey t k

structure PushLoopAcc where
  success : List String
  failed : List String
  copyEvents : List (Nat × CopyEventM)
  uploads : List String
deriving Repr, DecidableEq

/-- One iteration of the per-instance loop of `handleProviderPush`:
missing SOP id and missing/empty payload are per-instance failures that
never reach the upload; otherwise the instance is uploaded with retry
and the outcome recorded. -/
def pushUploadStep (env : PushEnv) (requestId : Nat) (acc : PushLoopAcc)
    (inst : PushInstance) : PushLoopAcc :=
  if inst.sop = "" then
    let failed' := acc.failed ++ ["(unknown)"]
    let ce1 := ceRecordFailure acc.copyEvents requestId "(unknown)" "missing SOPInstanceUID"
    let ce2 := ceUpdate ce1 requestId
      { failed := some failed'.length, success := some acc.success.length,
        status := some CopyStatus.someFailed }
    { acc with failed := failed', copyEvents := ce2 }
  else if inst.data = "" then
    let failed' := acc.failed ++ [inst.sop]
    let ce1 := ceRecordFailure acc.copyEvents requestId inst.sop
      "instance payload missing base64 data"
    let interim : CopyStatus := if failed'.length ≠ 0 then .someFailed else .copying
    let ce2 := ceUpdate ce1 requestId
      { failed := some failed'.length, success := some acc.success.length,
        status := some interim }
    { acc with failed := failed', copyEvents := ce2 }
  else if env.uploadOk inst.sop then
    let success' := acc.success ++ [inst.sop]
    let interim : CopyStatus := if acc.failed.length ≠ 0 then .someFailed else .copying
    let ce2 := ceUpdate acc.copyEvents requestId
      { failed := some acc.failed.length, success := some success'.length,
        status := some interim }
    { acc with success := success', copyEvents := ce2, uploads := acc.uploads ++ [inst.sop] }
  else
    let failed' := acc.failed ++ [inst.sop]
    let ce1 := ceRecordFailure acc.copyEvents requestId inst.sop "upload failed"
    let interim : CopyStatus := if failed'.length ≠ 0 then .someFailed else .copying
    let ce2 := ceUpdate ce1 requestId
      { failed := some failed'.length, success := some acc.success.length,
        status := some interim }
    { acc with failed := failed', copyEvents := ce2, uploads := acc.uploads ++ [inst.sop] }

/-- The accepted-path tail of `handleProviderPush`: mark the CopyEvent
`copying`, upload each instance with retry, compute the manifest hash
from actual outcomes, invoke the fulfillment signer, and remove the
pending entry regardless of the fulfillment outcome. -/
def pushExecute (env : PushEnv) (pending0 : List (Nat × PendingPushEntry))
    (ce0 : List (Nat × CopyEventM)) (requestId : Nat)
    (instances : List PushInstance) : PushOutcome :=
  let ce1 := ceUpdate ce0 requestId
    { status := some CopyStatus.copying, total := some instances.length }
  let acc := instances.foldl (pushUploadStep env requestId)
    { success := [], failed := [], copyEvents := ce1, uploads := [] }
  let manifestHash := buildManifestHash env.keccak acc.success acc.failed
  let outcomeStatus : CopyStatus :=
    if acc.failed.length ≠ 0 then .someFailed else .completed
  match env.markFulfilled with
  | .error m =>
    { status := 502, error := some m,
      pending := eraseKey pending0 requestId,
      copyEvents := ceFail acc.copyEvents requestId m,
      uploads := acc.uploads }
  | .ok _ =>
    { status := 200,
      body := some ⟨manifestHash, acc.success.length, acc.failed.length, outcomeStatus⟩,
      pending := eraseKey pending0 requestId,
      copyEvents := ceUpdate acc.copyEvents requestId
        { status := some outcomeStatus, success := some acc.success.length,
          failed := some acc.failed.length, manifestHash := some manifestHash },
      uploads := acc.uploads }

/-- `handleProviderPush` from worker/index.ts, verification order as in
the source: structural checks, pending-push lookup, clinic match,
operator lookup, content-hash signature recovery and comparison,
expiry, ledger terminal-status re-check, then upload and fulfillment
with the pending entry removed in the `finally`. -/
def handleProviderPush (env : PushEnv) (pending0 : List (Nat × PendingPushEntry))
    (ce0 : List (Nat × CopyEventM)) (envl : PushEnvelope) : PushOutcome :=
  if env.copyMode ≠ CopyMode.providerPush then
    { status := 400, error := some "copy mode is not providerPush",
      pending := pending0, copyEvents := ce0 }
  else if strTrim envl.clinicId = "" then
    { status := 400, error := some "clinicId is required",
      pending := pending0, copyEvents := ce0 }
  else
    match envl.requestId with
    | none =>
      { status := 400, error := some "requestId must be numeric",
        pending := pending0, copyEvents := ce0 }
    | some requestId =>
      match envl.expiresAt with
      | none =>
        { status := 400, error := some "expiresAt must be numeric",
          pending := pending0, copyEvents := ce0 }
      | some expiresAt =>
        if envl.signature = "" then
          { status := 400, error := some "signature is required",
            pending := pending0, copyEvents := ce0 }
        else if envl.instances.isEmpty then
          { status := 400, error := some "instances must be a non-empty array",
            pending := pending0, copyEvents := ce0 }
        else
          match alookup requestId pending0 with
          | none =>
            { status := 409, error := some "no pending access request",
              pending := pending0, copyEvents := ce0 }
          | some pending =>
            if pending.providerId ≠ strTrim envl.clinicId then
              { status := 403, error := some "clinicId mismatch",
                pending := pending0, copyEvents := ce0 }
            else
              match alookup (strTrim envl.clinicId) env.providerSigners with
              | none =>
                { status := 403, error := some "unknown provider clinic",
                  pending := pending0, copyEvents := ce0 }
              | some expectedSigner =>
                match env.recover
                    (buildPushMessage (strTrim envl.clinicId) requestId expiresAt
                      (computeInstancesHash env.keccak envl.instances))
                    envl.signature with
                | .error m =>
                  { status := 400, error := some ("signature verification failed: " ++ m),
                    pending := pending0, copyEvents := ce0 }
                | .ok recovered =>
                  if strToLower recovered ≠ strToLower expectedSigner then
                    { status := 403, error := some "signature mismatch",
                      pending := pending0, copyEvents := ce0 }
                  else if expiresAt < env.nowSec then
                    { status := 410, error := some "envelope expired",
                      pending := pending0, copyEvents := ce0 }
                  else
                    match env.reqs requestId with
                    | .error m =>
                      { status := 500,
                        error := some ("failed to load access request: " ++ m),
                        pending := pending0, copyEvents := ce0 }
                    | .ok reqData =>
                      if 2 ≤ reqData.status then
                        { status := 409, error := some "access request already fulfilled",
                          pending := eraseKey pending0 requestId, copyEvents := ce0 }
                      else if !env.requesterConfigured then
                        { status := 500, error := some "requester orthanc config missing",
                          pending := pending0, copyEvents := ce0 }
                      else
                        pushExecute env pending0 ce0 requestId envl.instances

theorem eraseKey_alookup_self [DecidableEq κ] (l : List (κ × α)) (k : κ) :
    alookup k (eraseKey l k) = none := by
  induction l with
  | nil => rfl
  | cons hd t ih =>
    obtain ⟨a, v⟩ := hd
    by_cases hk : a = k
    · simpa [eraseKey, hk] using ih
    · simpa [eraseKey, alookup, hk] using ih

theorem ceModify_alookup_self (store : List (Nat × CopyEventM)) (id : Nat)
    (f : CopyEventM → CopyEventM) :
    alookup id (ceModify store id f) = (alookup id store).map f := by
  induction store with
  | nil => rfl
  | cons hd t ih =>
    obtain ⟨a, v⟩ := hd
    by_cases hk : a = id
    · subst hk
      rw [show ceModify ((a, v) :: t) a f = (a, f v) :: ceModify t a f from by
            simp [ceModify]]
      simp [alookup]
    · rw [show ceModify ((a, v) :: t) id f = (a, v) :: ceModify t id f from by
            simp [ceModify, hk]]
      simp [alookup, hk, ih]

theorem optionMap_isSome (o : Option α) (f : α → β) : (o.map f).isSome = o.isSome := by
  cases o <;> rfl

theorem pushUploadStep_lookup_isSome (env : PushEnv) (rid : Nat) (acc : PushLoopAcc)
    (inst : PushInstance) :
    (alookup rid (pushUploadStep env rid acc inst).copyEvents).isSome =
      (alookup rid acc.copyEvents).isSome := by
  unfold pushUploadStep
  split_ifs <;>
    simp [ceUpdate, ceRecordFailure, ceModify_alookup_self, optionMap_isSome]

theorem pushLoop_lookup_isSome (env : PushEnv) (rid : Nat) :
    ∀ (insts : List PushInstance) (acc : PushLoopAcc),
      (alookup rid (insts.foldl (pushUploadStep env rid) acc).copyEvents).isSome =
        (alookup rid acc.copyEvents).isSome := by
  intro insts
  induction insts with
  | nil => intro acc; rfl
  | cons i t ih =>
    intro acc
    simp only [List.foldl_cons]
    rw [ih (pushUploadStep env rid acc i), pushUploadStep_lookup_isSome]

theorem pushLoop_uploads (env : PushEnv) (rid : Nat) :
    ∀ (insts : List PushInstance) (acc : PushLoopAcc),
      (∀ i ∈ insts, i.sop ≠ "" ∧ i.data ≠ "") →
      (insts.foldl (pushUploadStep env rid) acc).uploads =
        acc.uploads ++ insts.map (fun i => i.sop) := by
  intro insts
  induction insts with
  | nil => intro acc _; simp
  | cons i t ih =>
    intro acc hwf
    obtain ⟨hsop, hdata⟩ := hwf i (List.mem_cons_self i t)
    have hrest : ∀ j ∈ t, j.sop ≠ "" ∧ j.data ≠ "" := fun j hj =>
      hwf j (List.mem_cons_of_mem i hj)
    simp only [List.foldl_cons, List.map_cons]
    rw [ih _ hrest]
    by_cases hup : env.uploadOk i.sop
    · simp [pushUploadStep, hsop, hdata, hup]
    · simp [pushUploadStep, hsop, hdata, hup]

theorem pushExecute_pending_none (env : PushEnv)
    (pending0 : List (Nat × PendingPushEntry)) (ce0 : List (Nat × CopyEventM))
    (rid : Nat) (insts : List PushInstance) :
    alookup rid (pushExecute env pending0 ce0 rid insts).pending = none := by
  simp only [pushExecute]
  cases env.markFulfilled <;> simp [eraseKey_alookup_self]

theorem pushExecute_uploads (env : PushEnv)
    (pending0 : List (Nat × PendingPushEntry)) (ce0 : List (Nat × CopyEventM))
    (rid : Nat) (insts : List PushInstance)
    (hwf : ∀ i ∈ insts, i.sop ≠ "" ∧ i.data ≠ "") :
    (pushExecute env pending0 ce0 rid insts).uploads = insts.map (fun i => i.sop) := by
  simp only [pushExecute]
  cases env.markFulfilled <;> simpa using pushLoop_uploads env rid insts _ hwf

theorem pushExecute_fulfill_error (env : PushEnv)
    (pending0 : List (Nat × PendingPushEntry)) (ce0 : List (Nat × CopyEventM))
    (rid : Nat) (insts : List PushInstance) (m : String)
    (hm : env.markFulfilled = Except.error m) :
    (pushExecute env pending0 ce0 rid insts).status = 502 ∧
      ((alookup rid ce0).isSome = true →
        ∃ e, alookup rid (pushExecute env pending0 ce0 rid insts).copyEvents = some e ∧
          e.status = CopyStatus.error) := by
  simp only [pushExecute, hm]
  refine ⟨by trivial, ?_⟩
  intro hsome
  have hce1 : (alookup rid (ceUpdate ce0 rid
      { status := some CopyStatus.copying, total := some insts.length })).isSome = true := by
    rw [ceUpdate, ceModify_alookup_self, optionMap_isSome]
    exact hsome
  have hacc := (pushLoop_lookup_isSome env rid insts
    { success := [], failed := [],
      copyEvents := ceUpdate ce0 rid
        { status := some CopyStatus.copying, total := some insts.length },
      uploads := [] }).trans hce1
  rcases Option.isSome_iff_exists.mp hacc with ⟨e0, he0⟩
  exact ⟨_, by rw [ceFail, ceModify_alookup_self, he0, Option.map_some'], rfl⟩

theorem pushExecute_fulfill_ok (env : PushEnv)
    (pending0 : List (Nat × PendingPushEntry)) (ce0 : List (Nat × CopyEventM))
    (rid : Nat) (insts : List PushInstance) (tx : String)
    (hm : env.markFulfilled = Except.ok tx) :
    (pushExecute env pending0 ce0 rid insts).status = 200 := by
  simp [pushExecute, hm]

/-- C2: a push envelope with a matching pending-push entry is rejected
with a 4xx status and no instance upload when the address recovered
from its signature over the recomputed content hash differs
(case-insensitively) from the provider clinic's configured operator
address — in particular when the instance payloads were altered after
signing, changing the recomputed hash — or when recovery itself fails;
and the handler returns 200 only when the recovered signer matches the
operator address and the ledger status observed during the check is
not already terminal. -/
theorem handleProviderPush_signature_gate (env : PushEnv)
    (pending0 : List (Nat × PendingPushEntry)) (ce0 : List (Nat × CopyEventM))
    (envl : PushEnvelope) (rid : Nat) (pend : PendingPushEntry)
    (hrid : envl.requestId = some rid)
    (hpend : alookup rid pending0 = some pend) :
    (∀ exp op recovered,
      envl.expiresAt = some exp →
      alookup (strTrim envl.clinicId) env.providerSigners = some op →
      env.recover (buildPushMessage (strTrim envl.clinicId) rid exp
        (computeInstancesHash env.keccak envl.instances)) envl.signature =
          Except.ok recovered →
      strToLower recovered ≠ strToLower op →
      400 ≤ (handleProviderPush env pending0 ce0 envl).status ∧
        (handleProviderPush env pending0 ce0 envl).status < 500 ∧
        (handleProviderPush env pending0 ce0 envl).uploads = []) ∧
    (∀ exp m,
      envl.expiresAt = some exp →
      env.recover (buildPushMessage (strTrim envl.clinicId) rid exp
        (computeInstancesHash env.keccak envl.instances)) envl.signature =
          Except.error m →
      400 ≤ (handleProviderPush env pending0 ce0 envl).status ∧
        (handleProviderPush env pending0 ce0 envl).status < 500 ∧
        (handleProviderPush env pending0 ce0 envl).uploads = []) ∧
    ((handleProviderPush env pending0 ce0 envl).status = 200 →
      ∃ exp op recovered reqData,
        envl.expiresAt = some exp ∧
        alookup (strTrim envl.clinicId) env.providerSigners = some op ∧
        env.recover (buildPushMessage (strTrim envl.clinicId) rid exp
          (computeInstancesHash env.keccak envl.instances)) envl.signature =
            Except.ok recovered ∧
        strToLower recovered = strToLower op ∧
        env.reqs rid = Except.ok reqData ∧ reqData.status < 2) := by
  refine ⟨?_, ?_, ?_⟩
  · intro exp op recovered hexp hop hrec hne
    simp only [handleProviderPush, hrid, hexp, hpend, hop, hrec]
    rw [if_pos hne]
    split_ifs <;> exact ⟨by norm_num, by norm_num, rfl⟩
  · intro exp m hexp hrec
    cases hop2 : alookup (strTrim envl.clinicId) env.providerSigners with
    | none =>
      simp only [handleProviderPush, hrid, hexp, hpend, hrec, hop2]
      split_ifs <;> exact ⟨by norm_num, by norm_num, rfl⟩
    | some op =>
      simp only [handleProviderPush, hrid, hexp, hpend, hrec, hop2]
      split_ifs <;> exact ⟨by norm_num, by norm_num, rfl⟩
  · intro h200
    by_cases hmode : env.copyMode = CopyMode.providerPush
    swap
    · simp [handleProviderPush, hmode] at h200
    by_cases htrim : strTrim envl.clinicId = ""
    · simp [handleProviderPush, hmode, htrim] at h200
    cases hExp : envl.expiresAt with
    | none => simp [handleProviderPush, hrid, hmode, htrim, hExp] at h200
    | some exp =>
    by_cases hsig : envl.signature = ""
    · simp [handleProviderPush, hrid, hmode, htrim, hExp, hsig] at h200
    by_cases hempty : envl.instances.isEmpty = true
    · simp [handleProviderPush, hrid, hmode, htrim, hExp, hsig, hempty] at h200
    by_cases hprov : pend.providerId = strTrim envl.clinicId
    swap
    · simp [handleProviderPush, hrid, hmode, htrim, hExp, hsig, hempty, hpend, hprov] at h200
    cases hOp : alookup (strTrim envl.clinicId) env.providerSigners with
    | none =>
      simp [handleProviderPush, hrid, hmode, htrim, hExp, hsig, hempty, hpend, hprov,
        hOp] at h200
    | some op =>
    cases hrec : env.recover (buildPushMessage (strTrim envl.clinicId) rid exp
        (computeInstancesHash env.keccak envl.instances)) envl.signature with
    | error m =>
      simp [handleProviderPush, hrid, hmode, htrim, hExp, hsig, hempty, hpend, hprov,
        hOp, hrec] at h200
    | ok recovered =>
    by_cases hlow : strToLower recovered = strToLower op
    swap
    · simp [handleProviderPush, hrid, hmode, htrim, hExp, hsig, hempty, hpend, hprov,
        hOp, hrec, hlow] at h200
    by_cases hexpd : exp < env.nowSec
    · simp [handleProviderPush, hrid, hmode, htrim, hExp, hsig, hempty, hpend, hprov,
        hOp, hrec, hlow, hexpd] at h200
    cases hreq : env.reqs rid with
    | error m =>
      simp [handleProviderPush, hrid, hmode, htrim, hExp, hsig, hempty, hpend, hprov,
        hOp, hrec, hlow, hexpd, hreq] at h200
    | ok reqData =>
    by_cases hterm : 2 ≤ reqData.status
    · simp [handleProviderPush, hrid, hmode, htrim, hExp, hsig, hempty, hpend, hprov,
        hOp, hrec, hlow, hexpd, hreq, hterm] at h200
    exact ⟨exp, op, recovered, reqData, rfl, rfl, hrec, hlow, rfl, by omega⟩

/-! ### Concrete provider-push fixtures used by witnesses and
counterexamples -/

def pushFixEntry : PendingPushEntry :=
  { requestId := 7, providerId := "clinicA", patientAddress := "0xPatient",
    patientId := "patient-7" }

/-- A push environment over the `clinicA` provider whose operator
address is `0xAAAA`; signature recovery returns `rec`, the ledger
reports status `reqStatus` for every request, and the fulfillment
signer returns `mf`. -/
def pushFixEnv (rec : String) (reqStatus : Nat) (mf : Except String String) : PushEnv :=
  { copyMode := CopyMode.providerPush
    providerSigners := [("clinicA", "0xAAAA")]
    keccak := fun s => "keccak:" ++ s
    recover := fun _ _ => Except.ok rec
    reqs := fun _ => Except.ok
      { id := 7, status := reqStatus, patient := "0xPatient",
        providerClinicKey := "provKey", requesterClinicKey := "reqKey" }
    requesterConfigured := true
    nowSec := 50
    uploadOk := fun _ => true
    markFulfilled := mf }

def pushFixEnvelope : PushEnvelope :=
  { clinicId := "clinicA", requestId := some 7, expiresAt := some 100,
    instances := [{ sop := "sop-1", data := "QUJD" }], signature := "0xsig" }

/-- Witness for C2: with the pending entry for request 7 present and a
signature recovering to a non-operator address, the push is rejected
with a 4xx status and nothing is uploaded. -/
theorem handleProviderPush_signature_gate_witness :
    400 ≤ (handleProviderPush (pushFixEnv "0xBBBB" 1 (Except.ok "0xtx"))
        [(7, pushFixEntry)] [] pushFixEnvelope).status ∧
      (handleProviderPush (pushFixEnv "0xBBBB" 1 (Except.ok "0xtx"))
        [(7, pushFixEntry)] [] pushFixEnvelope).status < 500 ∧
      (handleProviderPush (pushFixEnv "0xBBBB" 1 (Except.ok "0xtx"))
        [(7, pushFixEntry)] [] pushFixEnvelope).uploads = [] :=
  (handleProviderPush_signature_gate (pushFixEnv "0xBBBB" 1 (Except.ok "0xtx"))
    [(7, pushFixEntry)] [] pushFixEnvelope 7 pushFixEntry rfl rfl).1
    100 "0xAAAA" "0xBBBB" rfl rfl rfl (by decide)

/-- Counterexample to C4 as stated: a push envelope for request 7 whose
pending entry and clinic id match, but whose signature recovers to a
non-operator address, is rejected with 403 and the pending-push entry
is NOT deleted — it is still present when `handleProviderPush`
returns. -/
theorem handleProviderPush_pending_kept_on_signature_mismatch :
    (handleProviderPush (pushFixEnv "0xBBBB" 1 (Except.ok "0xtx"))
        [(7, pushFixEntry)] [] pushFixEnvelope).status = 403 ∧
      (handleProviderPush (pushFixEnv "0xBBBB" 1 (Except.ok "0xtx"))
        [(7, pushFixEntry)] [] pushFixEnvelope).pending = [(7, pushFixEntry)] :=
  ⟨rfl, rfl⟩

/-- C4 amended: the pending-push entry is deleted by the time
`handleProviderPush` returns for every envelope that passes the
structural, clinic, signature and expiry checks and whose ledger read
succeeds, provided the on-chain status is already terminal or the
requester endpoint is configured (covering the terminal-status
rejection, the fulfillment-failure path and the success path);
rejections before that point leave the entry in place. -/
theorem handleProviderPush_pending_consumed (env : PushEnv)
    (pending0 : List (Nat × PendingPushEntry)) (ce0 : List (Nat × CopyEventM))
    (envl : PushEnvelope) (rid exp : Nat) (pend : PendingPushEntry)
    (op recovered : String) (reqData : LedgerReq)
    (hmode : env.copyMode = CopyMode.providerPush)
    (htrim : strTrim envl.clinicId ≠ "")
    (hrid : envl.requestId = some rid)
    (hexp : envl.expiresAt = some exp)
    (hsig : envl.signature ≠ "")
    (hinst : envl.instances.isEmpty = false)
    (hpend : alookup rid pending0 = some pend)
    (hprov : pend.providerId = strTrim envl.clinicId)
    (hop : alookup (strTrim envl.clinicId) env.providerSigners = some op)
    (hrec : env.recover (buildPushMessage (strTrim envl.clinicId) rid exp
      (computeInstancesHash env.keccak envl.instances)) envl.signature =
        Except.ok recovered)
    (hlow : strToLower recovered = strToLower op)
    (hnexp : ¬ exp < env.nowSec)
    (hreq : env.reqs rid = Except.ok reqData)
    (hready : 2 ≤ reqData.status ∨ env.requesterConfigured = true) :
    alookup rid (handleProviderPush env pending0 ce0 envl).pending = none := by
  by_cases hterm : 2 ≤ reqData.status
  · simp [handleProviderPush, hmode, htrim, hrid, hexp, hsig, hinst, hpend, hprov,
      hop, hrec, hlow, hnexp, hreq, hterm, eraseKey_alookup_self]
  · rcases hready with hready | hrcfg
    · exact absurd hready hterm
    · simp [handleProviderPush, hmode, htrim, hrid, hexp, hsig, hinst, hpend, hprov,
        hop, hrec, hlow, hnexp, hreq, hterm, hrcfg, pushExecute_pending_none]

/-- Witness for C4 (amended): an envelope with a valid operator
signature for request 7 whose ledger status is already terminal has its
pending entry removed. -/
theorem handleProviderPush_pending_consumed_witness :
    alookup 7 (handleProviderPush (pushFixEnv "0xAAAA" 2 (Except.ok "0xtx"))
      [(7, pushFixEntry)] [] pushFixEnvelope).pending = none :=
  handleProviderPush_pending_consumed (pushFixEnv "0xAAAA" 2 (Except.ok "0xtx"))
    [(7, pushFixEntry)] [] pushFixEnvelope 7 100 pushFixEntry "0xAAAA" "0xAAAA"
    { id := 7, status := 2, patient := "0xPatient",
      providerClinicKey := "provKey", requesterClinicKey := "reqKey" }
    rfl (by decide) rfl rfl (by decide) rfl rfl rfl rfl rfl rfl (by decide) rfl
    (Or.inl (by decide))

/-- Counterexample to C5 as stated: a push envelope with a valid
operator signature, a future expiry, a matching pending-push entry and
a non-empty instance list is NOT accepted when the ledger status
observed during the check is already terminal — it is rejected with 409
and no instance upload is attempted. -/
theorem handleProviderPush_terminal_not_accepted :
    (handleProviderPush (pushFixEnv "0xAAAA" 2 (Except.ok "0xtx"))
        [(7, pushFixEntry)] [] pushFixEnvelope).status = 409 ∧
      (handleProviderPush (pushFixEnv "0xAAAA" 2 (Except.ok "0xtx"))
        [(7, pushFixEntry)] [] pushFixEnvelope).uploads = [] ∧
      pushFixEnvelope.instances ≠ [] :=
  ⟨rfl, rfl, by decide⟩

/-- C5 amended: a push envelope with a valid operator signature, a
future expiry and a matching pending-push entry, whose observed ledger
status is not yet terminal and whose requester endpoint is configured,
is accepted: every instance is uploaded, the pending entry is removed
afterward even if the fulfillment call throws, and in that
fulfillment-failure case the response status is 502 and the CopyEvent
for the request id is marked `error`; if fulfillment succeeds the
response status is 200. -/
theorem handleProviderPush_accepts_valid_push (env : PushEnv)
    (pending0 : List (Nat × PendingPushEntry)) (ce0 : List (Nat × CopyEventM))
    (envl : PushEnvelope) (rid exp : Nat) (pend : PendingPushEntry)
    (op recovered : String) (reqData : LedgerReq)
    (hmode : env.copyMode = CopyMode.providerPush)
    (htrim : strTrim envl.clinicId ≠ "")
    (hrid : envl.requestId = some rid)
    (hexp : envl.expiresAt = some exp)
    (hsig : envl.signature ≠ "")
    (hinst : envl.instances.isEmpty = false)
    (hpend : alookup rid pending0 = some pend)
    (hprov : pend.providerId = strTrim envl.clinicId)
    (hop : alookup (strTrim envl.clinicId) env.providerSigners = some op)
    (hrec : env.recover (buildPushMessage (strTrim envl.clinicId) rid exp
      (computeInstancesHash env.keccak envl.instances)) envl.signature =
        Except.ok recovered)
    (hlow : strToLower recovered = strToLower op)
    (hnexp : ¬ exp < env.nowSec)
    (hreq : env.reqs rid = Except.ok reqData)
    (hterm : reqData.status < 2)
    (hrcfg : env.requesterConfigured = true)
    (hwf : ∀ i ∈ envl.instances, i.sop ≠ "" ∧ i.data ≠ "") :
    (handleProviderPush env pending0 ce0 envl).uploads =
        envl.instances.map (fun i => i.sop) ∧
      alookup rid (handleProviderPush env pending0 ce0 envl).pending = none ∧
      (∀ m, env.markFulfilled = Except.error m →
        (handleProviderPush env pending0 ce0 envl).status = 502 ∧
        ((alookup rid ce0).isSome = true →
          ∃ e, alookup rid (handleProviderPush env pending0 ce0 envl).copyEvents =
              some e ∧ e.status = CopyStatus.error)) ∧
      (∀ tx, env.markFulfilled = Except.ok tx →
        (handleProviderPush env pending0 ce0 envl).status = 200) := by
  have hterm' : ¬ 2 ≤ reqData.status := by omega
  have heq : handleProviderPush env pending0 ce0 envl =
      pushExecute env pending0 ce0 rid envl.instances := by
    simp [handleProviderPush, hmode, htrim, hrid, hexp, hsig, hinst, hpend, hprov,
      hop, hrec, hlow, hnexp, hreq, hterm', hrcfg]
  rw [heq]
  exact ⟨pushExecute_uploads env pending0 ce0 rid envl.instances hwf,
    pushExecute_pending_none env pending0 ce0 rid envl.instances,
    fun m hm => pushExecute_fulfill_error env pending0 ce0 rid envl.instances m hm,
    fun tx htx => pushExecute_fulfill_ok env pending0 ce0 rid envl.instances tx htx⟩

/-- Witness for C5 (amended): a fully valid push for request 7 whose
fulfillment call fails gets a 502, its instance uploaded, the pending
entry removed, and the CopyEvent marked `error`. -/
theorem handleProviderPush_accepts_valid_push_witness :
    (handleProviderPush (pushFixEnv "0xAAAA" 1 (Except.error "signer down"))
        [(7, pushFixEntry)] [(7, { status := CopyStatus.pending })] pushFixEnvelope).uploads =
        ["sop-1"] ∧
      alookup 7 (handleProviderPush (pushFixEnv "0xAAAA" 1 (Except.error "signer down"))
        [(7, pushFixEntry)] [(7, { status := CopyStatus.pending })] pushFixEnvelope).pending =
        none ∧
      (handleProviderPush (pushFixEnv "0xAAAA" 1 (Except.error "signer down"))
        [(7, pushFixEntry)] [(7, { status := CopyStatus.pending })] pushFixEnvelope).status =
        502 ∧
      ∃ e, alookup 7 (handleProviderPush (pushFixEnv "0xAAAA" 1 (Except.error "signer down"))
          [(7, pushFixEntry)] [(7, { status := CopyStatus.pending })] pushFixEnvelope).copyEvents =
          some e ∧ e.status = CopyStatus.error := by
  have h := handleProviderPush_accepts_valid_push
    (pushFixEnv "0xAAAA" 1 (Except.error "signer down"))
    [(7, pushFixEntry)] [(7, { status := CopyStatus.pending })] pushFixEnvelope 7 100
    pushFixEntry "0xAAAA" "0xAAAA"
    { id := 7, status := 1, patient := "0xPatient",
      providerClinicKey := "provKey", requesterClinicKey := "reqKey" }
    rfl (by decide) rfl rfl (by decide) rfl rfl rfl rfl rfl rfl (by decide) rfl
    (by decide) rfl (by intro i hi; constructor <;> (simp [pushFixEnvelope] at hi; subst hi; decide))
  obtain ⟨hup, hpend, herr, _⟩ := h
  obtain ⟨h502, hce⟩ := herr "signer down" rfl
  exact ⟨hup, hpend, h502, hce rfl⟩

/-! ### Secure gateway: `resolveAccessRequest` and the `/secure` proxy
route (worker/index.ts `startApiServer`)

The route handler is modelled as a pure function of the authentication
outcome, the extracted request-id parameter (`none` = absent,
`some none` = present but non-numeric), and an environment holding the
ledger, clinic configuration, alias lookup and the upstream proxy
outcome.  `audits` collects the entries written through the audit
logger by this request. -/

inductive ClinicRole
  | provider
  | requester
deriving Repr, DecidableEq

structure ClinicCfg where
  role : ClinicRole
  operatorAddress : Option String := none
  priceToken : Option String := none
deriving Repr, DecidableEq

inductive ResolveResult
  | denied (status : Nat) (message : String)
  | ok (reqData : LedgerReq) (patientAddress patientId : String)
deriving Repr, DecidableEq

/-- `resolvePatientId`: alias lookup falling back to the raw address. -/
def resolvePatientId (aliasLookup : String → Option String) (patientAddress : String) :
    String :=
  (aliasLookup patientAddress).getD patientAddress

/-- `resolveAccessRequest` from worker/index.ts: 404 for an id the
ledger does not know, 403 below status PatientApproved, 403 when the
requester clinic key matches no configured clinic with role
`requester`.  A rejected `contract.reqs` call propagates as an
exception (`Except.error`) to the route handler. -/
def resolveAccessRequest (keccak : String → String) (clinics : List (String × ClinicCfg))
    (reqs : Nat → Except String LedgerReq) (aliasLookup : String → Option String)
    (requestId : Nat) : Except String ResolveResult :=
  match reqs requestId with
  | .error m => .error m
  | .ok reqData =>
    if reqData.id = 0 then .ok (.denied 404 "request not found")
    else if reqData.status < 1 then .ok (.denied 403 "request is not approved")
    else
      let requesterKey := strToLower reqData.requesterClinicKey
      let allowedRequester := clinics.any (fun c =>
        decide (c.2.role = ClinicRole.requester) &&
          decide (strToLower (keccak c.1) = requesterKey))
      if !allowedRequester then
        .ok (.denied 403 "requester clinic is not managed by this worker")
      else .ok (.ok reqData reqData.patient (resolvePatientId aliasLookup reqData.patient))

structure Principal where
  subject : String
  roles : List String
  clinicId : Option String := none
deriving Repr, DecidableEq

inductive AuthOutcome
  | ok (principal : Option Principal)
  | denied (status : Nat)
deriving Repr, DecidableEq

structure AuditRecord where
  requestId : Nat
  status : Nat
  upstreamStatus : Option Nat := none
  error : Option String := none
deriving Repr, DecidableEq

structure SecureEnv where
  keccak : String → String
  clinics : List (String × ClinicCfg)
  reqs : Nat → Except String LedgerReq
  aliasLookup : String → Option String
  upstream : Except String Nat

structure SecureResult where
  status : Nat
  forwarded : Bool
  audits : List AuditRecord
deriving Repr, DecidableEq

/-- The `/secure/{requestId}/**` route of `startApiServer` (with the
requester axios configured): auth check, request-id extraction, the
per-request on-chain consent check, then the proxied upstream call.
Denials before the consent check write their error response without an
audit entry; a `contract.reqs` rejection escapes `resolveAccessRequest`
to the handler's outer catch, which responds 400 and also writes no
audit entry; the consent-check denial, the proxied success and the
upstream failure each write exactly one. -/
def secureRoute (env : SecureEnv) (authRes : AuthOutcome)
    (requestIdParam : Option (Option Nat)) : SecureResult :=
  match authRes with
  | .denied st => { status := st, forwarded := false, audits := [] }
  | .ok _ =>
    match requestIdParam with
    | none => { status := 400, forwarded := false, audits := [] }
    | some none => { status := 400, forwarded := false, audits := [] }
    | some (some requestId) =>
      match resolveAccessRequest env.keccak env.clinics env.reqs env.aliasLookup
          requestId with
      | .error _ => { status := 400, forwarded := false, audits := [] }
      | .ok (.denied st msg) =>
        { status := st, forwarded := false,
          audits := [{ requestId := requestId, status := st, error := some msg }] }
      | .ok (.ok _ _ _) =>
        match env.upstream with
        | .ok upStatus =>
          { status := upStatus, forwarded := true,
            audits := [{ requestId := requestId, status := upStatus, upstreamStatus := some upStatus }] }
        | .error msg =>
          { status := 502, forwarded := true,
            audits := [{ requestId := requestId, status := 502, error := some msg }] }

/-- C1: for a viewer-role request to `/secure/{requestId}/**` whose id
exists on the ledger: on-chain status REQUESTED (0) is denied with 403
and nothing is forwarded; status PatientApproved or later (≥ 1) with a
requester clinic managed by this gateway is forwarded to the configured
imaging endpoint. -/
theorem secure_route_consent_gate (env : SecureEnv) (p : Option Principal) (rid : Nat)
    (reqData : LedgerReq) (hreq : env.reqs rid = Except.ok reqData)
    (hid : reqData.id ≠ 0) :
    (reqData.status = 0 →
      secureRoute env (AuthOutcome.ok p) (some (some rid)) =
        { status := 403, forwarded := false,
          audits := [{ requestId := rid, status := 403, error := some "request is not approved" }] }) ∧
    (1 ≤ reqData.status →
      (∃ c ∈ env.clinics, c.2.role = ClinicRole.requester ∧
        strToLower (env.keccak c.1) = strToLower reqData.requesterClinicKey) →
      (secureRoute env (AuthOutcome.ok p) (some (some rid))).forwarded = true) := by
  constructor
  · intro hst
    simp [secureRoute, resolveAccessRequest, hreq, hid, hst]
  · intro hst hmanaged
    have hallowed : (env.clinics.any (fun c =>
        decide (c.2.role = ClinicRole.requester) &&
          decide (strToLower (env.keccak c.1) =
            strToLower reqData.requesterClinicKey))) = true := by
      rcases hmanaged with ⟨c, hc, hrole, hkey⟩
      exact List.any_eq_true.mpr ⟨c, hc, by simp [hrole, hkey]⟩
    have hst' : ¬ reqData.status < 1 := by omega
    cases hup : env.upstream with
    | ok upStatus => simp [secureRoute, resolveAccessRequest, hreq, hid, hst', hallowed, hup]
    | error msg => simp [secureRoute, resolveAccessRequest, hreq, hid, hst', hallowed, hup]

def secFixEnvDenied : SecureEnv :=
  { keccak := fun s => "h:" ++ s
    clinics := [("clinicB", { role := ClinicRole.requester })]
    reqs := fun _ => Except.ok
      { id := 7, status := 0, patient := "0xP",
        providerClinicKey := "h:clinicA", requesterClinicKey := "h:clinicB" }
    aliasLookup := fun _ => none
    upstream := Except.ok 200 }

def secFixEnvApproved : SecureEnv :=
  { keccak := fun s => "h:" ++ s
    clinics := [("clinicB", { role := ClinicRole.requester })]
    reqs := fun _ => Except.ok
      { id := 7, status := 1, patient := "0xP",
        providerClinicKey := "h:clinicA", requesterClinicKey := "h:clinicB" }
    aliasLookup := fun _ => none
    upstream := Except.ok 200 }

/-- Witness for C1: request 7 still REQUESTED is denied with 403 and not
forwarded; once PatientApproved with a managed requester clinic it is
forwarded. -/
theorem secure_route_consent_gate_witness :
    secureRoute secFixEnvDenied (AuthOutcome.ok none) (some (some 7)) =
      { status := 403, forwarded := false,
        audits := [{ requestId := 7, status := 403, error := some "request is not approved" }] } ∧
    (secureRoute secFixEnvApproved (AuthOutcome.ok none) (some (some 7))).forwarded =
      true := by
  constructor
  · exact (secure_route_consent_gate secFixEnvDenied none 7
      { id := 7, status := 0, patient := "0xP",
        providerClinicKey := "h:clinicA", requesterClinicKey := "h:clinicB" }
      rfl (by decide)).1 rfl
  · exact (secure_route_consent_gate secFixEnvApproved none 7
      { id := 7, status := 1, patient := "0xP",
        providerClinicKey := "h:clinicA", requesterClinicKey := "h:clinicB" }
      rfl (by decide)).2 (by decide)
      ⟨("clinicB", { role := ClinicRole.requester }), by decide, by decide, by decide⟩

def secFixEnvRpcDown : SecureEnv :=
  { keccak := fun s => "h:" ++ s
    clinics := [("clinicB", { role := ClinicRole.requester })]
    reqs := fun _ => Except.error "rpc unavailable"
    aliasLookup := fun _ => none
    upstream := Except.ok 200 }

/-- Counterexample to C10 as stated: a `/secure` request with a missing
request id is denied with 400 and writes NO audit entry; an
unauthenticated or insufficient-role request writes NO audit entry; and
an authenticated numeric-id request whose ledger read is rejected falls
to the handler's outer catch, responding 400 with NO audit entry — not
"exactly one" for every outcome. -/
theorem secure_route_no_audit_before_resolution :
    (secureRoute secFixEnvDenied (AuthOutcome.ok none) none).status = 400 ∧
    (secureRoute secFixEnvDenied (AuthOutcome.ok none) none).audits = [] ∧
    (secureRoute secFixEnvDenied (AuthOutcome.denied 403) (some (some 7))).audits = [] ∧
    (secureRoute secFixEnvRpcDown (AuthOutcome.ok none) (some (some 7))).status = 400 ∧
    (secureRoute secFixEnvRpcDown (AuthOutcome.ok none) (some (some 7))).audits = [] :=
  ⟨rfl, rfl, rfl, rfl, rfl⟩

/-- C10 amended: every `/secure` request that passes authentication,
carries a numeric request id, and whose ledger read succeeds produces
exactly one audit entry, for every outcome — consent-check denial,
successfully proxied call, and upstream failure; denials before the
on-chain resolution (missing or non-numeric request id,
unauthenticated or insufficient-role token, or a ledger read rejected
into the handler's outer catch) produce none. -/
theorem secure_route_one_audit_after_resolution (env : SecureEnv)
    (p : Option Principal) (rid : Nat) (reqData : LedgerReq)
    (hreq : env.reqs rid = Except.ok reqData) :
    (secureRoute env (AuthOutcome.ok p) (some (some rid))).audits.length = 1 := by
  simp only [secureRoute, resolveAccessRequest, hreq]
  split_ifs <;> cases hup : env.upstream <;> simp [hup]

/-- Witness for C10 (amended): an authenticated numeric-id request with
a successful ledger read writes exactly one audit entry. -/
theorem secure_route_one_audit_after_resolution_witness :
    (secureRoute secFixEnvDenied (AuthOutcome.ok none) (some (some 7))).audits.length =
      1 :=
  secure_route_one_audit_after_resolution secFixEnvDenied none 7
    { id := 7, status := 0, patient := "0xP",
      providerClinicKey := "h:clinicA", requesterClinicKey := "h:clinicB" }
    rfl

/-! ### Clinic-config route access control (worker/index.ts
`startApiServer`, worker/auth.ts `requireAuth`)

`requireAuth` is modelled on the decision level: `auth = none` is the
globally disabled mode, `some (.error (st, msg))` a header or token
verification failure with its status, `some (.ok p)` a verified token
yielding principal `p`. -/

inductive AuthResultM
  | allow (principal : Option Principal)
  | reject (status : Nat) (message : String)
deriving Repr, DecidableEq

/-- `requireAuth` from worker/auth.ts: with auth disabled every request
passes with no principal; a verified principal needs a non-empty
subject and, when required roles are given, at least one of them. -/
def requireAuth (auth : Option (Except (Nat × String) Principal))
    (requiredRoles : List String) : AuthResultM :=
  match auth with
  | none => .allow none
  | some (.error (st, msg)) => .reject st msg
  | some (.ok p) =>
    if p.subject = "" then .reject 401 "JWT subject missing"
    else if requiredRoles.isEmpty then .allow (some p)
    else if requiredRoles.any (fun r => p.roles.contains r) then .allow (some p)
    else .reject 403 "insufficient role"

structure ClinicConfigBody where
  clinicId : String
  hasQido : Bool
  hasWado : Bool
deriving Repr, DecidableEq

/-- `PUT /clinics/config` from `startApiServer`: `requireAuth` with
required role `worker.admin`, body validation, then the self-edit
check.  Returns the response status and whether the clinic store was
written. -/
def clinicsConfigPut (auth : Option (Except (Nat × String) Principal))
    (body : ClinicConfigBody) : Nat × Bool :=
  match requireAuth auth ["worker.admin"] with
  | .reject st _ => (st, false)
  | .allow principal =>
    if body.clinicId = "" ∨ body.hasQido = false ∨ body.hasWado = false then (400, false)
    else
      let isAdmin := (principal.map (fun p => p.roles.contains "worker.admin")).getD false
      let pcid := principal.bind (fun p => p.clinicId)
      if isAdmin = false ∧ pcid ≠ some body.clinicId then (403, false)
      else (200, true)

/-- `DELETE /clinics/config/{id}` from `startApiServer`. -/
def clinicsConfigDelete (auth : Option (Except (Nat × String) Principal))
    (target : String) : Nat × Bool :=
  match requireAuth auth ["worker.admin"] with
  | .reject st _ => (st, false)
  | .allow principal =>
    let isAdmin := (principal.map (fun p => p.roles.contains "worker.admin")).getD false
    let pcid := principal.bind (fun p => p.clinicId)
    if isAdmin = false ∧ pcid ≠ some target then (403, false)
    else (200, true)

/-- C3 (code bug): a valid non-admin token whose `clinic_id` claim
equals the target clinic id is nevertheless rejected with 403 and no
edit happens, for both PUT and DELETE — `requireAuth` is called with
required role `worker.admin`, so the handler's own self-edit check
("Others can only edit their own clinicId") is unreachable for
non-admin callers. -/
theorem clinicsConfig_self_edit_rejected :
    clinicsConfigPut
        (some (Except.ok
          { subject := "user-1", roles := ["requester.viewer"],
            clinicId := some "clinicA" }))
        { clinicId := "clinicA", hasQido := true, hasWado := true } = (403, false) ∧
      clinicsConfigDelete
        (some (Except.ok
          { subject := "user-1", roles := ["requester.viewer"],
            clinicId := some "clinicA" }))
        "clinicA" = (403, false) ∧
      clinicsConfigPut
        (some (Except.ok
          { subject := "admin-1", roles := ["worker.admin"], clinicId := none }))
        { clinicId := "clinicA", hasQido := true, hasWado := true } = (200, true) :=
  ⟨rfl, rfl, rfl⟩

/-! ### Audit logger (worker/cleanup-service.ts `AuditLogger`)

A log line is a JSON document; the JSON text layer
(`JSON.stringify`/`JSON.parse`, which is the identity on the document)
is modelled by the `Json` AST itself.  AES-256-GCM is modelled by
`enc`/`tagOf`/`dec` function parameters: `enc` the hex ciphertext of a
document under key and nonce, `tagOf` its authentication tag, `dec` the
fused decrypt-and-parse of the read path (`none` when authentication
or parsing fails).  `read` performs no schema decoding in the source —
it returns the parsed document — so round-tripping is stated on the
serialized entry. -/

inductive Json where
  | str (s : String)
  | num (n : Nat)
  | arr (xs : List Json)
  | obj (fields : List (String × Json))

/-- One gateway audit record, mirroring the `AuditLogEntry` type. -/
structure AuditLogEntry where
  timestamp : String
  method : String
  path : String
  forwardPath : String
  requestId : Nat
  patientAddress : String
  patientId : String
  query : Option (List (String × String)) := none
  status : Nat
  upstreamStatus : Option Nat := none
  error : Option String := none
  subject : Option String := none
  roles : Option (List String) := none
  clientIp : Option String := none
  authError : Option String := none

/-- `JSON.stringify` drops fields whose value is `undefined`. -/
def optField (k : String) : Option Json → List (String × Json)
  | none => []
  | some j => [(k, j)]

/-- The serialized form of an entry, fields in declaration order. -/
def entryToJson (e : AuditLogEntry) : Json :=
  Json.obj (
    [("timestamp", Json.str e.timestamp), ("method", Json.str e.method),
     ("path", Json.str e.path), ("forwardPath", Json.str e.forwardPath),
     ("requestId", Json.num e.requestId),
     ("patientAddress", Json.str e.patientAddress),
     ("patientId", Json.str e.patientId)]
    ++ optField "query" (e.query.map (fun q => Json.obj (q.map (fun p => (p.1, Json.str p.2)))))
    ++ [("status", Json.num e.status)]
    ++ optField "upstreamStatus" (e.upstreamStatus.map Json.num)
    ++ optField "error" (e.error.map Json.str)
    ++ optField "subject" (e.subject.map Json.str)
    ++ optField "roles" (e.roles.map (fun rs => Json.arr (rs.map Json.str)))
    ++ optField "clientIp" (e.clientIp.map Json.str)
    ++ optField "authError" (e.authError.map Json.str))

def Json.getField : Json → String → Option Json
  | .obj fields, k => alookup k fields
  | _, _ => none

/-- `AuditLogger.log` restricted to the line it appends: the plain
serialization without a key; with a key, the envelope
`\x7bv: 1, iv, tag, data\x7d` of nonce, authentication tag and
ciphertext. -/
def auditLogLine (key : Option String) (enc tagOf : String → String → Json → String)
    (iv : String) (e : AuditLogEntry) : Json :=
  match key with
  | none => entryToJson e
  | some k =>
    Json.obj [("v", Json.num 1), ("iv", Json.str iv),
      ("tag", Json.str (tagOf k iv (entryToJson e))),
      ("data", Json.str (enc k iv (entryToJson e)))]

/-- The per-line branch of `AuditLogger.read`: decrypt transparently
when a key is configured and the parsed line is an envelope with truthy
`iv`/`tag`/`data`; a failed decryption yields `none` and the line is
dropped; otherwise return the parsed line itself. -/
def parseAuditLine (key : Option String)
    (dec : String → String → String → String → Option Json) (line : Json) : Option Json :=
  match key with
  | none => some line
  | some k =>
    match line.getField "v", line.getField "iv", line.getField "tag",
        line.getField "data" with
    | some (.num 1), some (.str ivs), some (.str tags), some (.str datas) =>
      if ivs ≠ "" ∧ tags ≠ "" ∧ datas ≠ "" then
        match dec k ivs tags datas with
        | some j => some j
        | none => none
      else some line
    | _, _, _, _ => some line

/-- `AuditLogger.read`: newest first, at most `limit`, dropping lines
that fail to parse or decrypt. -/
def auditRead (key : Option String)
    (dec : String → String → String → String → Option Json)
    (lines : List Json) (limit : Nat) : List Json :=
  (lines.reverse.take limit).filterMap (parseAuditLine key dec)

/-- C9: with an encryption key, log-then-read returns the original
plaintext entry fields while the on-disk line is the envelope of
nonce, authentication tag and ciphertext (and exposes no entry field);
without a key the on-disk line is the plain serialization of the same
fields and read returns it unchanged.  The cipher is assumed correct at
this entry: decrypting what was encrypted returns the plaintext. -/
theorem auditLogger_roundtrip (k iv : String)
    (enc tagOf : String → String → Json → String)
    (dec : String → String → String → String → Option Json) (e : AuditLogEntry)
    (hdec : dec k iv (tagOf k iv (entryToJson e)) (enc k iv (entryToJson e)) =
      some (entryToJson e))
    (hiv : iv ≠ "") (htag : tagOf k iv (entryToJson e) ≠ "")
    (hdata : enc k iv (entryToJson e) ≠ "") :
    auditLogLine (some k) enc tagOf iv e =
      Json.obj [("v", Json.num 1), ("iv", Json.str iv),
        ("tag", Json.str (tagOf k iv (entryToJson e))),
        ("data", Json.str (enc k iv (entryToJson e)))] ∧
    (auditLogLine (some k) enc tagOf iv e).getField "timestamp" = none ∧
    auditRead (some k) dec [auditLogLine (some k) enc tagOf iv e] 100 =
      [entryToJson e] ∧
    auditLogLine none enc tagOf iv e = entryToJson e ∧
    auditRead none dec [auditLogLine none enc tagOf iv e] 100 = [entryToJson e] := by
  refine ⟨rfl, rfl, ?_, rfl, ?_⟩
  · simp [auditRead, parseAuditLine, auditLogLine, Json.getField, alookup,
      hiv, htag, hdata, hdec]
  · simp [auditRead, parseAuditLine, auditLogLine]

def auditFixEntry : AuditLogEntry :=
  { timestamp := "2026-01-01T00:00:00Z", method := "GET",
    path := "/secure/7/studies", forwardPath := "/studies", requestId := 7,
    patientAddress := "0xP", patientId := "p7", status := 200 }

def auditFixEnc : String → String → Json → String := fun _ _ _ => "CIPHER"

def auditFixTag : String → String → Json → String := fun _ _ _ => "TAG"

def auditFixDec : String → String → String → String → Option Json :=
  fun _ _ _ _ => some (entryToJson auditFixEntry)

/-- Witness for C9 at a concrete entry and a concrete (correct-at-this-
entry) cipher: round trip in both modes. -/
theorem auditLogger_roundtrip_witness :
    auditRead (some "k") auditFixDec
        [auditLogLine (some "k") auditFixEnc auditFixTag "0A" auditFixEntry] 100 =
      [entryToJson auditFixEntry] ∧
    auditRead none auditFixDec
        [auditLogLine none auditFixEnc auditFixTag "0A" auditFixEntry] 100 =
      [entryToJson auditFixEntry] := by
  have h := auditLogger_roundtrip "k" "0A" auditFixEnc auditFixTag auditFixDec
    auditFixEntry rfl (by decide) (by decide) (by decide)
  exact ⟨h.2.2.1, h.2.2.2.2⟩

end Gateway
